import Mathlib

/-
  Verification development for the quiz-from-docs repository.

  The repository has two source files: the quiz API request handler
  (POST /api/quiz, src/unnamed/part_000) and the client form page
  (src/app/quiz/page.tsx).  The definitions below are a shallow
  embedding of that code: JavaScript strings become Lean String,
  JSON.parse becomes an executable recursive-descent JSON reader,
  the handler becomes a pure function from its inputs (parsed request
  body, the two environment variables, the provider call result) to
  the HTTP response together with a flag recording whether the
  outbound provider call was issued.  JavaScript exceptions are
  modelled by the branch of the top-level catch they reach; the
  exact runtime exception message is replaced by a fixed stand-in
  string, since only the status and the error field are specified.
-/

namespace QuizSpec

/-- JSON values as produced by JSON.parse.  Numbers keep their source
lexeme: the handler never inspects a numeric value, only the fact that
a value is or is not a string / array / object. -/
inductive Json where
  | null : Json
  | bool (b : Bool) : Json
  | num (lexeme : String) : Json
  | str (s : String) : Json
  | arr (items : List Json) : Json
  | obj (fields : List (String × Json)) : Json

/-- Property lookup on a parsed JSON object.  JSON.parse assigns
duplicate keys in source order, so the last occurrence wins. -/
def getField (fields : List (String × Json)) (key : String) : Option Json :=
  match fields with
  | [] => none
  | (k, v) :: rest =>
    match getField rest key with
    | some w => some w
    | none => if k = key then some v else none

/-- JSON insignificant whitespace (RFC 8259): space, tab, LF, CR. -/
def isJsonWs (c : Char) : Bool :=
  c = ' ' || c = '\t' || c = '\n' || c = '\r'

/-- Skip insignificant whitespace. -/
def skipWs : List Char → List Char
  | [] => []
  | c :: cs => if isJsonWs c then skipWs cs else c :: cs

/-- Match an expected literal tail such as "ull" after n. -/
def stripLit : List Char → List Char → Option (List Char)
  | [], cs => some cs
  | _ :: _, [] => none
  | l :: ls, c :: cs => if c = l then stripLit ls cs else none

/-- Value of a hexadecimal digit. -/
def hexDigit (c : Char) : Option Nat :=
  if '0' ≤ c ∧ c ≤ '9' then some (c.toNat - 48)
  else if 'a' ≤ c ∧ c ≤ 'f' then some (c.toNat - 87)
  else if 'A' ≤ c ∧ c ≤ 'F' then some (c.toNat - 55)
  else none

/-- The left brace character. -/
def lbrace : Char := Char.ofNat 123

/-- The right brace character. -/
def rbrace : Char := Char.ofNat 125

/-- Read the rest of a JSON string literal (the opening quote already
consumed), handling the escape sequences JSON.parse accepts and
rejecting raw control characters. -/
def parseStringRest : Nat → List Char → List Char → Except String (String × List Char)
  | 0, _, _ => .error "out of fuel"
  | Nat.succ f, cs, acc =>
    match cs with
    | [] => .error "unterminated string"
    | c :: rest =>
      if c = '"' then .ok (String.mk acc.reverse, rest)
      else if c = '\\' then
        match rest with
        | [] => .error "bad escape"
        | e :: rest2 =>
          if e = '"' then parseStringRest f rest2 ('"' :: acc)
          else if e = '\\' then parseStringRest f rest2 ('\\' :: acc)
          else if e = '/' then parseStringRest f rest2 ('/' :: acc)
          else if e = 'b' then parseStringRest f rest2 (Char.ofNat 8 :: acc)
          else if e = 'f' then parseStringRest f rest2 (Char.ofNat 12 :: acc)
          else if e = 'n' then parseStringRest f rest2 ('\n' :: acc)
          else if e = 'r' then parseStringRest f rest2 ('\r' :: acc)
          else if e = 't' then parseStringRest f rest2 ('\t' :: acc)
          else if e = 'u' then
            match rest2 with
            | h1 :: h2 :: h3 :: h4 :: rest3 =>
              match hexDigit h1, hexDigit h2, hexDigit h3, hexDigit h4 with
              | some a, some b, some c2, some d =>
                parseStringRest f rest3 (Char.ofNat (a * 4096 + b * 256 + c2 * 16 + d) :: acc)
              | _, _, _, _ => .error "bad unicode escape"
            | _ => .error "bad unicode escape"
          else .error "bad escape"
      else if c.toNat < 32 then .error "control character in string"
      else parseStringRest f rest (c :: acc)

/-- Read a JSON number: optional minus, integer part without leading
zeros, optional fraction, optional exponent.  The lexeme is kept. -/
def parseNumber (cs : List Char) : Except String (Json × List Char) :=
  let (neg, cs1) :=
    match cs with
    | '-' :: t => (['-'], t)
    | _ => (([] : List Char), cs)
  match cs1 with
  | [] => .error "bad number"
  | c :: t =>
    if c = '0' then
      let intPart := ['0']
      let cs2 := t
      let (fracPart, cs3) :=
        match cs2 with
        | '.' :: t2 =>
          let ds := t2.takeWhile Char.isDigit
          (if ds = [] then none else some ('.' :: ds), t2.dropWhile Char.isDigit)
        | _ => (some [], cs2)
      let (expPart, cs4) :=
        match cs3 with
        | e :: t3 =>
          if e = 'e' ∨ e = 'E' then
            let (sgn, t4) :=
              match t3 with
              | s :: t5 => if s = '+' ∨ s = '-' then ([s], t5) else (([] : List Char), t3)
              | [] => (([] : List Char), t3)
            let ds := t4.takeWhile Char.isDigit
            (if ds = [] then none else some (e :: (sgn ++ ds)), t4.dropWhile Char.isDigit)
          else (some [], cs3)
        | [] => (some [], cs3)
      match fracPart, expPart with
      | some fp, some ep => .ok (Json.num (String.mk (neg ++ intPart ++ fp ++ ep)), cs4)
      | _, _ => .error "bad number"
    else if c.isDigit then
      let intPart := cs1.takeWhile Char.isDigit
      let cs2 := cs1.dropWhile Char.isDigit
      let (fracPart, cs3) :=
        match cs2 with
        | '.' :: t2 =>
          let ds := t2.takeWhile Char.isDigit
          (if ds = [] then none else some ('.' :: ds), t2.dropWhile Char.isDigit)
        | _ => (some [], cs2)
      let (expPart, cs4) :=
        match cs3 with
        | e :: t3 =>
          if e = 'e' ∨ e = 'E' then
            let (sgn, t4) :=
              match t3 with
              | s :: t5 => if s = '+' ∨ s = '-' then ([s], t5) else (([] : List Char), t3)
              | [] => (([] : List Char), t3)
            let ds := t4.takeWhile Char.isDigit
            (if ds = [] then none else some (e :: (sgn ++ ds)), t4.dropWhile Char.isDigit)
          else (some [], cs3)
        | [] => (some [], cs3)
      match fracPart, expPart with
      | some fp, some ep => .ok (Json.num (String.mk (neg ++ intPart ++ fp ++ ep)), cs4)
      | _, _ => .error "bad number"
    else .error "bad number"

mutual

/-- Read one JSON value (fuel-driven recursive descent). -/
def parseValue : Nat → List Char → Except String (Json × List Char)
  | 0, _ => .error "out of fuel"
  | Nat.succ f, cs =>
    match skipWs cs with
    | [] => .error "unexpected end of input"
    | c :: rest =>
      if c = 'n' then
        match stripLit ['u', 'l', 'l'] rest with
        | some rest2 => .ok (Json.null, rest2)
        | none => .error "invalid literal"
      else if c = 't' then
        match stripLit ['r', 'u', 'e'] rest with
        | some rest2 => .ok (Json.bool true, rest2)
        | none => .error "invalid literal"
      else if c = 'f' then
        match stripLit ['a', 'l', 's', 'e'] rest with
        | some rest2 => .ok (Json.bool false, rest2)
        | none => .error "invalid literal"
      else if c = '"' then
        match parseStringRest f rest [] with
        | .ok (s, rest2) => .ok (Json.str s, rest2)
        | .error e => .error e
      else if c = '[' then parseArrayTail f rest
      else if c = lbrace then parseObjectTail f rest
      else if c = '-' ∨ c.isDigit then parseNumber (c :: rest)
      else .error "unexpected token"

/-- After an opening bracket: empty array or a first item. -/
def parseArrayTail : Nat → List Char → Except String (Json × List Char)
  | 0, _ => .error "out of fuel"
  | Nat.succ f, cs =>
    match skipWs cs with
    | [] => .error "unterminated array"
    | c :: rest =>
      if c = ']' then .ok (Json.arr [], rest)
      else parseArrayItems f (c :: rest) []

/-- Comma-separated array items, then the closing bracket. -/
def parseArrayItems : Nat → List Char → List Json → Except String (Json × List Char)
  | 0, _, _ => .error "out of fuel"
  | Nat.succ f, cs, acc =>
    match parseValue f cs with
    | .error e => .error e
    | .ok (v, rest) =>
      match skipWs rest with
      | [] => .error "unterminated array"
      | c :: rest2 =>
        if c = ',' then parseArrayItems f rest2 (v :: acc)
        else if c = ']' then .ok (Json.arr (v :: acc).reverse, rest2)
        else .error "expected comma or bracket"

/-- After an opening brace: empty object or a first member. -/
def parseObjectTail : Nat → List Char → Except String (Json × List Char)
  | 0, _ => .error "out of fuel"
  | Nat.succ f, cs =>
    match skipWs cs with
    | [] => .error "unterminated object"
    | c :: rest =>
      if c = rbrace then .ok (Json.obj [], rest)
      else parseObjectItems f (c :: rest) []

/-- Comma-separated object members, then the closing brace. -/
def parseObjectItems : Nat → List Char → List (String × Json) → Except String (Json × List Char)
  | 0, _, _ => .error "out of fuel"
  | Nat.succ f, cs, acc =>
    match skipWs cs with
    | '"' :: rest =>
      match parseStringRest f rest [] with
      | .error e => .error e
      | .ok (key, rest2) =>
        match skipWs rest2 with
        | ':' :: rest3 =>
          match parseValue f rest3 with
          | .error e => .error e
          | .ok (v, rest4) =>
            match skipWs rest4 with
            | [] => .error "unterminated object"
            | c :: rest5 =>
              if c = ',' then parseObjectItems f rest5 ((key, v) :: acc)
              else if c = rbrace then .ok (Json.obj ((key, v) :: acc).reverse, rest5)
              else .error "expected comma or brace"
        | _ => .error "expected colon"
    | _ => .error "expected string key"

end

/-- Model of JSON.parse: read one value, then only whitespace may
remain.  The fuel bound exceeds the largest possible number of
recursive calls for the input, so it never cuts a real parse short. -/
def parseJson (s : String) : Except String Json :=
  match parseValue (2 * s.length + 4) s.toList with
  | .error e => .error e
  | .ok (v, rest) =>
    match skipWs rest with
    | [] => .ok v
    | _ :: _ => .error "unexpected trailing characters"

/-- True when JSON.parse would throw on this input. -/
def parseFailed (r : Except String Json) : Bool :=
  match r with
  | .error _ => true
  | .ok _ => false

/-- A generated quiz item: question/answer pair (type QA in the route). -/
structure QA where
  question : String
  answer : String
deriving DecidableEq

/-- The JSON body of the handler's Response.json call: HTTP status plus
the payload fields that appear across the handler's return sites. -/
structure ApiResponse where
  status : Nat
  quizzes : Option (List QA)
  error : Option String
  details : Option String
  raw : Option String
deriving DecidableEq

/-- Success response with the quizzes payload. -/
def mkOk (qs : List QA) : ApiResponse := ⟨200, some qs, none, none, none⟩

/-- Error response carrying only an error message. -/
def mkErr (status : Nat) (msg : String) : ApiResponse := ⟨status, none, some msg, none, none⟩

/-- Error response with the raw model output attached. -/
def mkErrRaw (status : Nat) (msg raw : String) : ApiResponse := ⟨status, none, some msg, none, some raw⟩

/-- Error response with a details field. -/
def mkErrDetails (status : Nat) (msg details : String) : ApiResponse :=
  ⟨status, none, some msg, some details, none⟩

/-- Outcome of the OpenAI chat-completions fetch: a non-2xx response
with its body text and status text, or a 2xx response whose extracted
message content (content, else tool-call arguments, else the empty
string) is the given string. -/
inductive ProviderResult where
  | httpError (errTxt : String) (statusText : String) : ProviderResult
  | success (content : String) : ProviderResult

/-- What one handler invocation produced: the response, and whether
the outbound provider fetch was issued. -/
structure Outcome where
  resp : ApiResponse
  calledProvider : Bool

/-- One normalization candidate: the element must be a non-null object
with question and answer properties whose values are both strings. -/
def quizItem (x : Json) : Option QA :=
  match x with
  | Json.obj fields =>
    match getField fields "question", getField fields "answer" with
    | some (Json.str q), some (Json.str a) => some ⟨q, a⟩
    | _, _ => none
  | _ => none

/-- Normalize the parsed value into quiz items: a bare array is
filtered elementwise; an object with an array-valued quizzes property
is filtered the same way; anything else yields the empty list. -/
def normalizeQuizzes (parsed : Json) : List QA :=
  match parsed with
  | Json.arr xs => xs.filterMap quizItem
  | Json.obj fields =>
    match getField fields "quizzes" with
    | some (Json.arr xs) => xs.filterMap quizItem
    | _ => []
  | _ => []

/-- After normalization: empty list is a 500 "No quizzes generated"
with the raw content; otherwise at most the first 5 items are
returned with status 200. -/
def finishQuizzes (parsed : Json) (content : String) : ApiResponse :=
  let quizzes := normalizeQuizzes parsed
  if quizzes = [] then mkErrRaw 500 "No quizzes generated" content
  else mkOk (quizzes.take 5)

/-- The regex fallback: content.match of a bracketed-substring pattern
takes the first opening bracket and, greedily, the last closing
bracket of the whole string; the match exists when that closing
bracket lies after the opening one. -/
def extractBracket (s : String) : Option String :=
  let cs := s.toList
  match cs.findIdx? (fun c => c = '['), cs.reverse.findIdx? (fun c => c = ']') with
  | some i, some k =>
    let j := cs.length - 1 - k
    if i < j then some (String.mk ((cs.drop i).take (j - i + 1))) else none
  | _, _ => none

/-- Parsing stage of the handler on the extracted content string.
Strict JSON.parse first; on failure the bracketed substring is tried.
A parse failure of that substring throws inside the catch block, so
it escapes to the top-level catch and surfaces as the generic 500,
not as the "Failed to parse model output" response. -/
def handleContent (content : String) : ApiResponse :=
  match parseJson content with
  | .ok parsed => finishQuizzes parsed content
  | .error _ =>
    match extractBracket content with
    | some sub =>
      match parseJson sub with
      | .ok parsed => finishQuizzes parsed content
      | .error e => mkErrDetails 500 "Unexpected server error" e
    | none => mkErrRaw 500 "Failed to parse model output" content

/-- Whitespace removed by JavaScript String.prototype.trim: WhiteSpace
and LineTerminator code points. -/
def isTrimWs (c : Char) : Bool :=
  c = ' ' || c = '\t' || c = '\n' || c = '\r' ||
  c = Char.ofNat 11 || c = Char.ofNat 12 || c = Char.ofNat 160 ||
  c = Char.ofNat 5760 || (8192 ≤ c.toNat && c.toNat ≤ 8202) ||
  c = Char.ofNat 8232 || c = Char.ofNat 8233 || c = Char.ofNat 8239 ||
  c = Char.ofNat 8287 || c = Char.ofNat 12288 || c = Char.ofNat 65279

/-- Remove trailing trim-whitespace. -/
def trimEnd (l : List Char) : List Char := (l.reverse.dropWhile isTrimWs).reverse

/-- Remove leading and trailing trim-whitespace (String.prototype.trim). -/
def trimList (l : List Char) : List Char := trimEnd (l.dropWhile isTrimWs)

/-- text.trim() as a String operation. -/
def jsTrim (s : String) : String := String.mk (trimList s.toList)

/-- The server's text.trim().slice(0, 1000) (route line 14). -/
def trimTruncate (s : String) : String := String.mk ((trimList s.toList).take 1000)

/-- The client Generate handler's payload: text.trim().slice(0, MAX_LEN)
with MAX_LEN = 1000 (page.tsx line 28). -/
def handleGeneratePayload (text : String) : String :=
  String.mk ((trimList text.toList).take 1000)

/-- The textarea onChange handler: e.target.value.slice(0, MAX_LEN)
(page.tsx line 82). -/
def onTextChange (value : String) : String := String.mk (value.toList.take 1000)

/-- Destructuring const (text) = body: a text property exists only when
the parsed body is an object; on primitives and arrays it is undefined. -/
def getTextField (body : Json) : Option Json :=
  match body with
  | Json.obj fields => getField fields "text"
  | _ => none

/-- JavaScript truthiness of an optional environment variable string:
an unset variable and the empty string are both falsy. -/
def envTruthy (v : Option String) : Option String :=
  match v with
  | some s => if s = "" then none else some s
  | none => none

/-- process.env.NEXT_PUBLIC_OPENAI_API_KEY || process.env.OPENAI_API_KEY:
the first truthy value wins. -/
def firstTruthy (a b : Option String) : Option String :=
  match envTruthy a with
  | some s => some s
  | none => envTruthy b

/-- Steps of the handler after a key was found: the provider call. -/
def withKey (pr : ProviderResult) : Outcome :=
  match pr with
  | ProviderResult.httpError errTxt statusText =>
    ⟨mkErrDetails 500 "OpenAI API error" (if errTxt = "" then statusText else errTxt), true⟩
  | ProviderResult.success content => ⟨handleContent content, true⟩

/-- Credential check: without a truthy key the handler answers 500 and
never issues the outbound fetch. -/
def afterTrim (ep epv : Option String) (pr : ProviderResult) : Outcome :=
  match firstTruthy ep epv with
  | none =>
    ⟨mkErr 500 "Missing OpenAI API key in environment (set NEXT_PUBLIC_OPENAI_API_KEY or OPENAI_API_KEY)", false⟩
  | some _ => withKey pr

/-- Validation on a string-typed text value.  The !text check fires on
the empty string as well, so an empty string still answers
"text is required"; only then is the trimmed-truncated text tested. -/
def withText (s : String) (ep epv : Option String) (pr : ProviderResult) : Outcome :=
  if s = "" then ⟨mkErr 400 "text is required", false⟩
  else if trimTruncate s = "" then ⟨mkErr 400 "text must not be empty", false⟩
  else afterTrim ep epv pr

/-- The !text || typeof text check on the destructured text value. -/
def validateBody (b : Json) (ep epv : Option String) (pr : ProviderResult) : Outcome :=
  match getTextField b with
  | some (Json.str s) => withText s ep epv pr
  | _ => ⟨mkErr 400 "text is required", false⟩

/-- The POST /api/quiz handler.  Input: the request body as parsed by
request.json (none when that call throws), the two environment
variables, and the provider call result.  A body of JSON null makes
the destructuring throw, reaching the top-level catch. -/
def POST (body : Option Json) (ep epv : Option String) (pr : ProviderResult) : Outcome :=
  match body with
  | none => ⟨mkErrDetails 500 "Unexpected server error" "invalid request body", false⟩
  | some Json.null => ⟨mkErrDetails 500 "Unexpected server error" "cannot destructure null", false⟩
  | some b => validateBody b ep epv pr

/-- Shape of a parsed value the normalization recognizes: a bare array,
or an object carrying an array-valued quizzes property. -/
def isArrOrQuizzesObj (v : Json) : Bool :=
  match v with
  | Json.arr _ => true
  | Json.obj fields =>
    match getField fields "quizzes" with
    | some (Json.arr _) => true
    | _ => false
  | _ => false

/-- JSON encoding of one quiz item, as the prompt requests it. -/
def jsonOfQA (qa : QA) : Json :=
  Json.obj [("question", Json.str qa.question), ("answer", Json.str qa.answer)]

/-- The shape check as the specification words it: an object containing
both question and answer as string-typed values. -/
def specValidShape (x : Json) : Prop :=
  ∃ fields q a, x = Json.obj fields ∧
    getField fields "question" = some (Json.str q) ∧
    getField fields "answer" = some (Json.str a)

/-- A well-formed request body used to instantiate endpoint theorems. -/
def bodyOk : Option Json := some (Json.obj [("text", Json.str "hi")])

/-- A provider content string that is exactly one quiz-item array. -/
def qaArrayLit : String := "[\x7b\"question\":\"Q\",\"answer\":\"A\"\x7d]"

/-- dropWhile is idempotent. -/
theorem dropWhile_idem {α : Type} (p : α → Bool) (l : List α) :
    List.dropWhile p (List.dropWhile p l) = List.dropWhile p l := by
  induction l with
  | nil => rfl
  | cons c cs ih =>
    by_cases hp : p c = true
    · simp only [List.dropWhile_cons, if_pos hp]
      exact ih
    · simp only [List.dropWhile_cons, if_neg hp]

/-- The head surviving dropWhile fails the predicate. -/
theorem dropWhile_head_false {α : Type} (p : α → Bool) (l : List α) (c : α) (t : List α)
    (h : List.dropWhile p l = c :: t) : p c = false := by
  induction l with
  | nil => exact absurd h (by simp)
  | cons a as ih =>
    by_cases hp : p a = true
    · rw [List.dropWhile_cons, if_pos hp] at h
      exact ih h
    · rw [List.dropWhile_cons, if_neg hp] at h
      injection h with h1 _
      subst h1
      exact Bool.eq_false_iff.mpr hp

/-- dropWhile fixes a list whose head fails the predicate. -/
theorem dropWhile_self {α : Type} (p : α → Bool) (l : List α)
    (h : ∀ c t, l = c :: t → p c = false) : List.dropWhile p l = l := by
  cases l with
  | nil => rfl
  | cons a as =>
    have ha := h a as rfl
    simp [List.dropWhile_cons, ha]

/-- trimEnd yields a prefix: it plus the removed trailing whitespace
is the original list. -/
theorem trimEnd_append (l : List Char) :
    trimEnd l ++ (l.reverse.takeWhile isTrimWs).reverse = l := by
  unfold trimEnd
  rw [← List.reverse_append, List.takeWhile_append_dropWhile, List.reverse_reverse]

/-- A nonempty trimEnd result starts with the original head. -/
theorem trimEnd_head (l : List Char) (c : Char) (t : List Char) (h : trimEnd l = c :: t) :
    ∃ t2, l = c :: t2 := by
  have hd := trimEnd_append l
  rw [h] at hd
  exact ⟨t ++ (l.reverse.takeWhile isTrimWs).reverse, hd.symm⟩

/-- trimEnd is idempotent. -/
theorem trimEnd_idem (l : List Char) : trimEnd (trimEnd l) = trimEnd l := by
  unfold trimEnd
  rw [List.reverse_reverse, dropWhile_idem]

/-- String.prototype.trim is idempotent. -/
theorem trimList_idem (l : List Char) : trimList (trimList l) = trimList l := by
  unfold trimList
  have h1 : List.dropWhile isTrimWs (trimEnd (List.dropWhile isTrimWs l))
      = trimEnd (List.dropWhile isTrimWs l) := by
    apply dropWhile_self
    intro c t hct
    rcases trimEnd_head _ c t hct with ⟨t2, h2⟩
    exact dropWhile_head_false isTrimWs l c t2 h2
  rw [h1, trimEnd_idem]

/-- The shape filter accepts the canonical encoding of an item. -/
theorem quizItem_jsonOfQA (qa : QA) : quizItem (jsonOfQA qa) = some qa := rfl

/-- Filtering the canonical encodings recovers the original items. -/
theorem filterMap_jsonOfQA (l : List QA) : (l.map jsonOfQA).filterMap quizItem = l := by
  induction l with
  | nil => rfl
  | cons qa rest ih => simp [List.filterMap_cons, quizItem_jsonOfQA, ih]

/-- finishQuizzes on a nonempty normalization. -/
theorem finishQuizzes_eq (p : Json) (c : String) (h : normalizeQuizzes p ≠ []) :
    finishQuizzes p c = mkOk ((normalizeQuizzes p).take 5) := by
  unfold finishQuizzes
  simp [h]

/-- finishQuizzes on an empty normalization. -/
theorem finishQuizzes_empty (p : Json) (c : String) (h : normalizeQuizzes p = []) :
    finishQuizzes p c = mkErrRaw 500 "No quizzes generated" c := by
  unfold finishQuizzes
  simp [h]

/-- The four mutually exclusive outcomes of the parsing stage. -/
theorem handleContent_cases (c : String) :
    (∃ p, parseJson c = Except.ok p ∧ handleContent c = finishQuizzes p c)
    ∨ (∃ e, parseJson c = Except.error e ∧ extractBracket c = none
        ∧ handleContent c = mkErrRaw 500 "Failed to parse model output" c)
    ∨ (∃ e sub p, parseJson c = Except.error e ∧ extractBracket c = some sub
        ∧ parseJson sub = Except.ok p ∧ handleContent c = finishQuizzes p c)
    ∨ (∃ e sub e2, parseJson c = Except.error e ∧ extractBracket c = some sub
        ∧ parseJson sub = Except.error e2
        ∧ handleContent c = mkErrDetails 500 "Unexpected server error" e2) := by
  obtain ⟨r, hp⟩ : ∃ r, parseJson c = r := ⟨_, rfl⟩
  cases r with
  | ok v =>
    exact Or.inl ⟨v, hp, by simp only [handleContent, hp]⟩
  | error e =>
    obtain ⟨r2, h2⟩ : ∃ r2, extractBracket c = r2 := ⟨_, rfl⟩
    cases r2 with
    | none =>
      exact Or.inr (Or.inl ⟨e, hp, h2, by simp only [handleContent, hp, h2]⟩)
    | some sub =>
      obtain ⟨r3, h3⟩ : ∃ r3, parseJson sub = r3 := ⟨_, rfl⟩
      cases r3 with
      | ok v =>
        exact Or.inr (Or.inr (Or.inl ⟨e, sub, v, hp, h2, h3,
          by simp only [handleContent, hp, h2, h3]⟩))
      | error e2 =>
        exact Or.inr (Or.inr (Or.inr ⟨e, sub, e2, hp, h2, h3,
          by simp only [handleContent, hp, h2, h3]⟩))

/-- Every parsing-stage response is a 200 or a 500. -/
theorem handleContent_status (c : String) :
    (handleContent c).status = 200 ∨ (handleContent c).status = 500 := by
  rcases handleContent_cases c with ⟨p, _, hh⟩ | ⟨e, _, _, hh⟩ | ⟨e, sub, p, _, _, _, hh⟩ | ⟨e, sub, e2, _, _, _, hh⟩
  · rw [hh]
    unfold finishQuizzes
    by_cases hz : normalizeQuizzes p = [] <;> simp [hz, mkErrRaw, mkOk]
  · rw [hh]
    exact Or.inr rfl
  · rw [hh]
    unfold finishQuizzes
    by_cases hz : normalizeQuizzes p = [] <;> simp [hz, mkErrRaw, mkOk]
  · rw [hh]
    exact Or.inr rfl

/-- Every 200 from the parsing stage carries the first 5 filtered
items of some successfully parsed value. -/
theorem handleContent_200 (c : String) (h : (handleContent c).status = 200) :
    ∃ p, (parseJson c = Except.ok p
        ∨ ∃ sub, extractBracket c = some sub ∧ parseJson sub = Except.ok p)
      ∧ handleContent c = mkOk ((normalizeQuizzes p).take 5)
      ∧ normalizeQuizzes p ≠ [] := by
  rcases handleContent_cases c with ⟨p, hp, hh⟩ | ⟨e, _, _, hh⟩ | ⟨e, sub, p, _, hsub, hp2, hh⟩ | ⟨e, sub, e2, _, _, _, hh⟩
  · by_cases hz : normalizeQuizzes p = []
    · rw [hh, finishQuizzes_empty p c hz] at h
      exact absurd (show (500 : Nat) = 200 from h) (by decide)
    · exact ⟨p, Or.inl hp, by rw [hh, finishQuizzes_eq p c hz], hz⟩
  · rw [hh] at h
    exact absurd (show (500 : Nat) = 200 from h) (by decide)
  · by_cases hz : normalizeQuizzes p = []
    · rw [hh, finishQuizzes_empty p c hz] at h
      exact absurd (show (500 : Nat) = 200 from h) (by decide)
    · exact ⟨p, Or.inr ⟨sub, hsub, hp2⟩, by rw [hh, finishQuizzes_eq p c hz], hz⟩
  · rw [hh] at h
    exact absurd (show (500 : Nat) = 200 from h) (by decide)

/-- Either validation stops the request (400 or 500, no outbound call,
no quizzes payload), or the whole outcome is the provider stage. -/
theorem validateBody_cases (b : Json) (ep epv : Option String) (pr : ProviderResult) :
    ((validateBody b ep epv pr).calledProvider = false
      ∧ ((validateBody b ep epv pr).resp.status = 400 ∨ (validateBody b ep epv pr).resp.status = 500)
      ∧ (validateBody b ep epv pr).resp.quizzes = none)
    ∨ validateBody b ep epv pr = withKey pr := by
  obtain ⟨g, hg⟩ : ∃ g, getTextField b = g := ⟨_, rfl⟩
  cases g with
  | none =>
    have hv : validateBody b ep epv pr = ⟨mkErr 400 "text is required", false⟩ := by
      unfold validateBody
      rw [hg]
    rw [hv]
    exact Or.inl ⟨rfl, Or.inl rfl, rfl⟩
  | some v =>
    cases v with
    | str s =>
      have hv : validateBody b ep epv pr = withText s ep epv pr := by
        unfold validateBody
        rw [hg]
      rw [hv]
      unfold withText
      by_cases hs : s = ""
      · rw [if_pos hs]
        exact Or.inl ⟨rfl, Or.inl rfl, rfl⟩
      · rw [if_neg hs]
        by_cases ht : trimTruncate s = ""
        · rw [if_pos ht]
          exact Or.inl ⟨rfl, Or.inl rfl, rfl⟩
        · rw [if_neg ht]
          unfold afterTrim
          obtain ⟨k2, hk⟩ : ∃ k2, firstTruthy ep epv = k2 := ⟨_, rfl⟩
          cases k2 with
          | none =>
            rw [hk]
            exact Or.inl ⟨rfl, Or.inr rfl, rfl⟩
          | some key =>
            rw [hk]
            exact Or.inr rfl
    | null =>
      have hv : validateBody b ep epv pr = ⟨mkErr 400 "text is required", false⟩ := by
        unfold validateBody
        rw [hg]
      rw [hv]
      exact Or.inl ⟨rfl, Or.inl rfl, rfl⟩
    | bool b2 =>
      have hv : validateBody b ep epv pr = ⟨mkErr 400 "text is required", false⟩ := by
        unfold validateBody
        rw [hg]
      rw [hv]
      exact Or.inl ⟨rfl, Or.inl rfl, rfl⟩
    | num l2 =>
      have hv : validateBody b ep epv pr = ⟨mkErr 400 "text is required", false⟩ := by
        unfold validateBody
        rw [hg]
      rw [hv]
      exact Or.inl ⟨rfl, Or.inl rfl, rfl⟩
    | arr a2 =>
      have hv : validateBody b ep epv pr = ⟨mkErr 400 "text is required", false⟩ := by
        unfold validateBody
        rw [hg]
      rw [hv]
      exact Or.inl ⟨rfl, Or.inl rfl, rfl⟩
    | obj f2 =>
      have hv : validateBody b ep epv pr = ⟨mkErr 400 "text is required", false⟩ := by
        unfold validateBody
        rw [hg]
      rw [hv]
      exact Or.inl ⟨rfl, Or.inl rfl, rfl⟩

/-- Either the request stops before the provider call (400 or 500,
no outbound call, no quizzes payload), or the outcome is the provider
stage. -/
theorem POST_cases (body : Option Json) (ep epv : Option String) (pr : ProviderResult) :
    ((POST body ep epv pr).calledProvider = false
      ∧ ((POST body ep epv pr).resp.status = 400 ∨ (POST body ep epv pr).resp.status = 500)
      ∧ (POST body ep epv pr).resp.quizzes = none)
    ∨ POST body ep epv pr = withKey pr := by
  cases body with
  | none => exact Or.inl ⟨rfl, Or.inr rfl, rfl⟩
  | some b =>
    cases b with
    | null => exact Or.inl ⟨rfl, Or.inr rfl, rfl⟩
    | bool b2 => exact validateBody_cases (Json.bool b2) ep epv pr
    | num l2 => exact validateBody_cases (Json.num l2) ep epv pr
    | str s2 => exact validateBody_cases (Json.str s2) ep epv pr
    | arr a2 => exact validateBody_cases (Json.arr a2) ep epv pr
    | obj f2 => exact validateBody_cases (Json.obj f2) ep epv pr

/-- When the provider succeeded and the outbound call was made, the
response is the parsing stage's response on that content. -/
theorem called_success_resp (body : Option Json) (ep epv : Option String) (content : String)
    (hcall : (POST body ep epv (ProviderResult.success content)).calledProvider = true) :
    (POST body ep epv (ProviderResult.success content)).resp = handleContent content := by
  rcases POST_cases body ep epv (ProviderResult.success content) with ⟨hf, _, _⟩ | h
  · rw [hf] at hcall
    exact absurd hcall (by decide)
  · rw [h]
    rfl

/-- The key-found stage never answers 400. -/
theorem afterTrim_status (ep epv : Option String) (pr : ProviderResult) :
    (afterTrim ep epv pr).resp.status = 200 ∨ (afterTrim ep epv pr).resp.status = 500 := by
  unfold afterTrim
  obtain ⟨k2, hk⟩ : ∃ k2, firstTruthy ep epv = k2 := ⟨_, rfl⟩
  cases k2 with
  | none =>
    rw [hk]
    exact Or.inr rfl
  | some key =>
    rw [hk]
    unfold withKey
    cases pr with
    | httpError t st => exact Or.inr rfl
    | success c => exact handleContent_status c

/-- A response of the key-found stage differs from every 400 error. -/
theorem afterTrim_ne_400 (ep epv : Option String) (pr : ProviderResult) (m : String) :
    (afterTrim ep epv pr).resp ≠ mkErr 400 m := by
  intro h
  have h2 := congrArg ApiResponse.status h
  rcases afterTrim_status ep epv pr with h3 | h3 <;> rw [h3] at h2
  · exact absurd (show (200 : Nat) = 400 from h2) (by decide)
  · exact absurd (show (500 : Nat) = 400 from h2) (by decide)

/-- C1: the endpoint never returns a 200 response whose quizzes array
has more than 5 items or zero items; when normalization yields more
than 5 valid items the returned list is truncated to exactly 5, and
when it yields zero valid items the endpoint returns the 500
"No quizzes generated" error instead of an empty success. -/
theorem C1_success_bounds (body : Option Json) (ep epv : Option String) (pr : ProviderResult)
    (pA pB : Json) (cA cB : String) :
    ((POST body ep epv pr).resp.status = 200 →
      ∃ qs, (POST body ep epv pr).resp.quizzes = some qs ∧ 1 ≤ qs.length ∧ qs.length ≤ 5)
    ∧ (5 < (normalizeQuizzes pA).length →
        finishQuizzes pA cA = mkOk ((normalizeQuizzes pA).take 5)
          ∧ ((normalizeQuizzes pA).take 5).length = 5)
    ∧ (normalizeQuizzes pB = [] →
        finishQuizzes pB cB = mkErrRaw 500 "No quizzes generated" cB) := by
  refine ⟨?_, ?_, ?_⟩
  · intro h200
    rcases POST_cases body ep epv pr with ⟨_, hst, _⟩ | h
    · rcases hst with h4 | h4 <;> rw [h200] at h4
      · exact absurd h4 (by decide)
      · exact absurd h4 (by decide)
    · rw [h] at h200 ⊢
      cases pr with
      | httpError t st =>
        exact absurd (show (500 : Nat) = 200 from h200) (by decide)
      | success c =>
        rcases handleContent_200 c h200 with ⟨p, _, hh, hz⟩
        refine ⟨(normalizeQuizzes p).take 5, ?_, ?_, ?_⟩
        · show (handleContent c).quizzes = _
          rw [hh]
          rfl
        · have hpos := List.length_pos.mpr hz
          rw [List.length_take]
          omega
        · rw [List.length_take]
          omega
  · intro h5
    have hz : normalizeQuizzes pA ≠ [] := by
      intro he
      rw [he] at h5
      exact absurd h5 (by decide)
    refine ⟨finishQuizzes_eq pA cA hz, ?_⟩
    rw [List.length_take]
    omega
  · intro hz
    exact finishQuizzes_empty pB cB hz

/-- Witness for C1 at concrete inputs: a one-item success stays within
the bounds, a six-item normalization is cut to exactly 5, and an empty
normalization yields the 500 error. -/
theorem C1_success_bounds_witness :
    (∃ qs, (POST bodyOk (some "k") none (ProviderResult.success qaArrayLit)).resp.quizzes = some qs
        ∧ 1 ≤ qs.length ∧ qs.length ≤ 5)
    ∧ (finishQuizzes (Json.arr (List.replicate 6 (jsonOfQA ⟨"q", "a"⟩))) "c"
          = mkOk ((normalizeQuizzes (Json.arr (List.replicate 6 (jsonOfQA ⟨"q", "a"⟩)))).take 5)
        ∧ ((normalizeQuizzes (Json.arr (List.replicate 6 (jsonOfQA ⟨"q", "a"⟩)))).take 5).length = 5)
    ∧ finishQuizzes (Json.arr []) "r" = mkErrRaw 500 "No quizzes generated" "r" :=
  ⟨(C1_success_bounds bodyOk (some "k") none (ProviderResult.success qaArrayLit)
      (Json.arr (List.replicate 6 (jsonOfQA ⟨"q", "a"⟩))) (Json.arr []) "c" "r").1 rfl,
   (C1_success_bounds bodyOk (some "k") none (ProviderResult.success qaArrayLit)
      (Json.arr (List.replicate 6 (jsonOfQA ⟨"q", "a"⟩))) (Json.arr []) "c" "r").2.1 (by decide),
   (C1_success_bounds bodyOk (some "k") none (ProviderResult.success qaArrayLit)
      (Json.arr (List.replicate 6 (jsonOfQA ⟨"q", "a"⟩))) (Json.arr []) "c" "r").2.2 rfl⟩

/-- C2: when the provider content parses strictly to an object whose
quizzes property is the array of the canonical encodings of 5 items,
the endpoint answers 200 with exactly those 5 items, unchanged and in
order. -/
theorem C2_roundtrip (body : Option Json) (ep epv : Option String) (content : String)
    (items : List QA)
    (hcall : (POST body ep epv (ProviderResult.success content)).calledProvider = true)
    (hparse : parseJson content
      = Except.ok (Json.obj [("quizzes", Json.arr (items.map jsonOfQA))]))
    (hlen : items.length = 5) :
    (POST body ep epv (ProviderResult.success content)).resp = mkOk items := by
  rw [called_success_resp body ep epv content hcall]
  have hn : normalizeQuizzes (Json.obj [("quizzes", Json.arr (items.map jsonOfQA))]) = items := by
    show (items.map jsonOfQA).filterMap quizItem = items
    exact filterMap_jsonOfQA items
  have hz : normalizeQuizzes (Json.obj [("quizzes", Json.arr (items.map jsonOfQA))]) ≠ [] := by
    rw [hn]
    intro he
    rw [he] at hlen
    exact absurd hlen (by decide)
  have hh : handleContent content
      = finishQuizzes (Json.obj [("quizzes", Json.arr (items.map jsonOfQA))]) content := by
    simp only [handleContent, hparse]
  rw [hh, finishQuizzes_eq _ _ hz, hn, List.take_of_length_le (le_of_eq hlen)]

/-- The exact five-item provider output used to instantiate C2. -/
def contentFive : String :=
  "\x7b\"quizzes\":[\x7b\"question\":\"Q1\",\"answer\":\"A1\"\x7d,\x7b\"question\":\"Q2\",\"answer\":\"A2\"\x7d,\x7b\"question\":\"Q3\",\"answer\":\"A3\"\x7d,\x7b\"question\":\"Q4\",\"answer\":\"A4\"\x7d,\x7b\"question\":\"Q5\",\"answer\":\"A5\"\x7d]\x7d"

/-- The five items encoded by contentFive. -/
def itemsFive : List QA :=
  [⟨"Q1", "A1"⟩, ⟨"Q2", "A2"⟩, ⟨"Q3", "A3"⟩, ⟨"Q4", "A4"⟩, ⟨"Q5", "A5"⟩]

set_option maxRecDepth 8000 in
/-- Witness for C2: the concrete five-item provider output is returned
verbatim. -/
theorem C2_roundtrip_witness :
    (POST bodyOk (some "k") none (ProviderResult.success contentFive)).resp = mkOk itemsFive :=
  C2_roundtrip bodyOk (some "k") none contentFive itemsFive rfl rfl rfl

/-- C3 counterexample: on content a[b]c the strict parse fails and the
extracted bracketed substring is itself invalid, but the endpoint
answers 500 "Unexpected server error" with no raw field, not
"Failed to parse model output" with the raw content: the second
JSON.parse throws inside the catch block and escapes to the top-level
handler. -/
theorem C3_counterexample :
    parseFailed (parseJson "a[b]c") = true
    ∧ extractBracket "a[b]c" = some "[b]"
    ∧ parseFailed (parseJson "[b]") = true
    ∧ (POST bodyOk (some "k") none (ProviderResult.success "a[b]c")).resp.error
        = some "Unexpected server error"
    ∧ (POST bodyOk (some "k") none (ProviderResult.success "a[b]c")).resp.error
        ≠ some "Failed to parse model output"
    ∧ (POST bodyOk (some "k") none (ProviderResult.success "a[b]c")).resp.raw = none := by
  refine ⟨rfl, rfl, rfl, rfl, ?_, rfl⟩
  decide

/-- C3 amended: when both parse attempts fail, the endpoint answers
500 "Failed to parse model output" with the raw content only when no
bracketed substring exists; when a bracketed substring exists but is
itself invalid JSON, the parse exception escapes the catch block and
the endpoint answers 500 "Unexpected server error". -/
theorem C3_parse_error_paths (body : Option Json) (ep epv : Option String)
    (content sub : String)
    (hcall : (POST body ep epv (ProviderResult.success content)).calledProvider = true)
    (hfail : parseFailed (parseJson content) = true) :
    (extractBracket content = none →
      (POST body ep epv (ProviderResult.success content)).resp
        = mkErrRaw 500 "Failed to parse model output" content)
    ∧ (extractBracket content = some sub → parseFailed (parseJson sub) = true →
      (POST body ep epv (ProviderResult.success content)).resp.status = 500
      ∧ (POST body ep epv (ProviderResult.success content)).resp.error
          = some "Unexpected server error") := by
  rw [called_success_resp body ep epv content hcall]
  rcases handleContent_cases content with ⟨p, hp, _⟩ | ⟨e, hp, hnone, hh⟩
    | ⟨e, sub2, p, hp, hsome, hp2, hh⟩ | ⟨e, sub2, e2, hp, hsome, hp2, hh⟩
  · rw [hp] at hfail
    exact absurd hfail (by simp [parseFailed])
  · constructor
    · intro _
      exact hh
    · intro hsome _
      rw [hnone] at hsome
      exact absurd hsome (by simp)
  · constructor
    · intro hnone
      rw [hsome] at hnone
      exact absurd hnone (by simp)
    · intro hsome2 hfail2
      rw [hsome] at hsome2
      injection hsome2 with he
      rw [← he] at hfail2
      rw [hp2] at hfail2
      exact absurd hfail2 (by simp [parseFailed])
  · constructor
    · intro hnone
      rw [hsome] at hnone
      exact absurd hnone (by simp)
    · intro _ _
      rw [hh]
      exact ⟨rfl, rfl⟩

/-- Witness for C3 amended: the a[b]c content reaches the
unexpected-error branch. -/
theorem C3_parse_error_paths_witness :
    (POST bodyOk (some "k") none (ProviderResult.success "a[b]c")).resp.status = 500
    ∧ (POST bodyOk (some "k") none (ProviderResult.success "a[b]c")).resp.error
        = some "Unexpected server error" :=
  (C3_parse_error_paths bodyOk (some "k") none "a[b]c" "[b]" rfl rfl).2 rfl rfl

/-- Validation analysis on a non-null body, stated on validateBody:
the "text is required" answer appears exactly when the text value is
not a nonempty string, and the "text must not be empty" answer
appears, for a nonempty string value, exactly when the trimmed
truncated text is empty. -/
theorem validateBody_validation (b : Json) (ep epv : Option String) (pr : ProviderResult) :
    ((validateBody b ep epv pr).resp = mkErr 400 "text is required"
      ↔ ¬∃ s, getTextField b = some (Json.str s) ∧ s ≠ "")
    ∧ (∀ s, getTextField b = some (Json.str s) → s ≠ "" →
        ((validateBody b ep epv pr).resp = mkErr 400 "text must not be empty"
          ↔ trimTruncate s = "")) := by
  obtain ⟨g, hg⟩ : ∃ g, getTextField b = g := ⟨_, rfl⟩
  cases g with
  | none =>
    have hv : validateBody b ep epv pr = ⟨mkErr 400 "text is required", false⟩ := by
      unfold validateBody
      rw [hg]
    rw [hv, hg]
    refine ⟨⟨fun _ h2 => ?_, fun _ => rfl⟩, fun s2 hs2 => Option.noConfusion hs2⟩
    rcases h2 with ⟨s2, hs2, _⟩
    exact Option.noConfusion hs2
  | some v =>
    cases v with
    | str s =>
      have hv : validateBody b ep epv pr = withText s ep epv pr := by
        unfold validateBody
        rw [hg]
      rw [hv, hg]
      by_cases hs : s = ""
      · subst hs
        have hw : withText "" ep epv pr = ⟨mkErr 400 "text is required", false⟩ := by
          unfold withText
          rw [if_pos rfl]
        rw [hw]
        refine ⟨⟨fun _ h2 => ?_, fun _ => rfl⟩, fun s2 hs2 hne => ?_⟩
        · rcases h2 with ⟨s2, hs2, hne⟩
          injection hs2 with h3
          injection h3 with h4
          exact hne h4.symm
        · injection hs2 with h3
          injection h3 with h4
          exact absurd h4.symm hne
      · have hw : withText s ep epv pr
            = if trimTruncate s = "" then ⟨mkErr 400 "text must not be empty", false⟩
              else afterTrim ep epv pr := by
          unfold withText
          rw [if_neg hs]
        rw [hw]
        by_cases ht : trimTruncate s = ""
        · rw [if_pos ht]
          refine ⟨⟨fun h2 => absurd h2 (by decide), fun hne => (hne ⟨s, rfl, hs⟩).elim⟩,
            fun s2 hs2 hne => ?_⟩
          injection hs2 with h3
          injection h3 with h4
          subst h4
          exact ⟨fun _ => ht, fun _ => rfl⟩
        · rw [if_neg ht]
          refine ⟨⟨fun h2 => (afterTrim_ne_400 ep epv pr _ h2).elim,
            fun hne => (hne ⟨s, rfl, hs⟩).elim⟩, fun s2 hs2 hne => ?_⟩
          injection hs2 with h3
          injection h3 with h4
          subst h4
          exact ⟨fun h2 => (afterTrim_ne_400 ep epv pr _ h2).elim, fun h2 => absurd h2 ht⟩
    | null =>
      have hv : validateBody b ep epv pr = ⟨mkErr 400 "text is required", false⟩ := by
        unfold validateBody
        rw [hg]
      rw [hv, hg]
      refine ⟨⟨fun _ h2 => ?_, fun _ => rfl⟩, fun s2 hs2 => ?_⟩
      · rcases h2 with ⟨s2, hs2, _⟩
        injection hs2 with h3
        exact Json.noConfusion h3
      · injection hs2 with h3
        exact Json.noConfusion h3
    | bool b2 =>
      have hv : validateBody b ep epv pr = ⟨mkErr 400 "text is required", false⟩ := by
        unfold validateBody
        rw [hg]
      rw [hv, hg]
      refine ⟨⟨fun _ h2 => ?_, fun _ => rfl⟩, fun s2 hs2 => ?_⟩
      · rcases h2 with ⟨s2, hs2, _⟩
        injection hs2 with h3
        exact Json.noConfusion h3
      · injection hs2 with h3
        exact Json.noConfusion h3
    | num l2 =>
      have hv : validateBody b ep epv pr = ⟨mkErr 400 "text is required", false⟩ := by
        unfold validateBody
        rw [hg]
      rw [hv, hg]
      refine ⟨⟨fun _ h2 => ?_, fun _ => rfl⟩, fun s2 hs2 => ?_⟩
      · rcases h2 with ⟨s2, hs2, _⟩
        injection hs2 with h3
        exact Json.noConfusion h3
      · injection hs2 with h3
        exact Json.noConfusion h3
    | arr a2 =>
      have hv : validateBody b ep epv pr = ⟨mkErr 400 "text is required", false⟩ := by
        unfold validateBody
        rw [hg]
      rw [hv, hg]
      refine ⟨⟨fun _ h2 => ?_, fun _ => rfl⟩, fun s2 hs2 => ?_⟩
      · rcases h2 with ⟨s2, hs2, _⟩
        injection hs2 with h3
        exact Json.noConfusion h3
      · injection hs2 with h3
        exact Json.noConfusion h3
    | obj f2 =>
      have hv : validateBody b ep epv pr = ⟨mkErr 400 "text is required", false⟩ := by
        unfold validateBody
        rw [hg]
      rw [hv, hg]
      refine ⟨⟨fun _ h2 => ?_, fun _ => rfl⟩, fun s2 hs2 => ?_⟩
      · rcases h2 with ⟨s2, hs2, _⟩
        injection hs2 with h3
        exact Json.noConfusion h3
      · injection hs2 with h3
        exact Json.noConfusion h3

/-- C4 counterexample: a body whose text field is present as the empty
string answers 400 "text is required", because the !text check treats
the empty string as falsy; the claim expects validation to proceed to
the trim step and answer "text must not be empty" there. -/
theorem C4_counterexample :
    getTextField (Json.obj [("text", Json.str "")]) = some (Json.str "")
    ∧ (POST (some (Json.obj [("text", Json.str "")])) (some "k") none
        (ProviderResult.success "x")).resp = mkErr 400 "text is required"
    ∧ mkErr 400 "text is required" ≠ mkErr 400 "text must not be empty" := by
  refine ⟨rfl, rfl, ?_⟩
  decide

/-- C4 amended: 400 "text is required" appears exactly when the text
field is absent, not a string, or the empty string; when text is a
nonempty string, 400 "text must not be empty" appears exactly when the
trimmed-and-truncated text is empty. -/
theorem C4_validation (body : Json) (ep epv : Option String) (pr : ProviderResult)
    (hnn : body ≠ Json.null) :
    ((POST (some body) ep epv pr).resp = mkErr 400 "text is required"
      ↔ ¬∃ s, getTextField body = some (Json.str s) ∧ s ≠ "")
    ∧ (∀ s, getTextField body = some (Json.str s) → s ≠ "" →
        ((POST (some body) ep epv pr).resp = mkErr 400 "text must not be empty"
          ↔ trimTruncate s = "")) := by
  cases body with
  | null => exact absurd rfl hnn
  | bool b2 => exact validateBody_validation (Json.bool b2) ep epv pr
  | num l2 => exact validateBody_validation (Json.num l2) ep epv pr
  | str s2 => exact validateBody_validation (Json.str s2) ep epv pr
  | arr a2 => exact validateBody_validation (Json.arr a2) ep epv pr
  | obj f2 => exact validateBody_validation (Json.obj f2) ep epv pr

/-- Witness for C4 amended: a whitespace-only text reaches the trim
step and the emptiness test there decides the answer. -/
theorem C4_validation_witness :
    (POST (some (Json.obj [("text", Json.str " ")])) (some "k") none
        (ProviderResult.success "x")).resp = mkErr 400 "text must not be empty"
      ↔ trimTruncate " " = "" :=
  (C4_validation (Json.obj [("text", Json.str " ")]) (some "k") none
      (ProviderResult.success "x") (fun h => Json.noConfusion h)).2 " " rfl (by decide)

/-- A provider output whose single item has empty string fields. -/
def contentEmptyQA : String :=
  "\x7b\"quizzes\":[\x7b\"question\":\"\",\"answer\":\"\"\x7d]\x7d"

/-- C5 counterexample: the shape filter checks only that question and
answer are strings, so a 200 response can carry empty-string fields,
contradicting the non-emptiness claim. -/
theorem C5_counterexample :
    (POST bodyOk (some "k") none (ProviderResult.success contentEmptyQA)).resp.status = 200
    ∧ (POST bodyOk (some "k") none (ProviderResult.success contentEmptyQA)).resp.quizzes
        = some [⟨"", ""⟩]
    ∧ (QA.mk "" "").question = "" :=
  ⟨rfl, rfl, rfl⟩

/-- C5 amended: every 200 response carries the first 5 items of the
shape-filtered normalization of a value parsed from the provider
content (strictly or through the bracket fallback); the fields are
string-typed but not necessarily non-empty. -/
theorem C5_items_pass_filter (body : Option Json) (ep epv : Option String)
    (pr : ProviderResult)
    (h200 : (POST body ep epv pr).resp.status = 200) :
    ∃ content p, pr = ProviderResult.success content
      ∧ (parseJson content = Except.ok p
          ∨ ∃ sub, extractBracket content = some sub ∧ parseJson sub = Except.ok p)
      ∧ (POST body ep epv pr).resp = mkOk ((normalizeQuizzes p).take 5)
      ∧ normalizeQuizzes p ≠ [] := by
  rcases POST_cases body ep epv pr with ⟨_, hst, _⟩ | h
  · rcases hst with h4 | h4 <;> rw [h200] at h4
    · exact absurd h4 (by decide)
    · exact absurd h4 (by decide)
  · rw [h] at h200 ⊢
    cases pr with
    | httpError t st =>
      exact absurd (show (500 : Nat) = 200 from h200) (by decide)
    | success c =>
      rcases handleContent_200 c h200 with ⟨p, hsrc, hh, hz⟩
      refine ⟨c, p, rfl, hsrc, ?_, hz⟩
      show handleContent c = _
      rw [hh]

/-- Witness for C5 amended on a concrete single-item success. -/
theorem C5_items_pass_filter_witness :
    ∃ content p, ProviderResult.success qaArrayLit = ProviderResult.success content
      ∧ (parseJson content = Except.ok p
          ∨ ∃ sub, extractBracket content = some sub ∧ parseJson sub = Except.ok p)
      ∧ (POST bodyOk (some "k") none (ProviderResult.success qaArrayLit)).resp
          = mkOk ((normalizeQuizzes p).take 5)
      ∧ normalizeQuizzes p ≠ [] :=
  C5_items_pass_filter bodyOk (some "k") none (ProviderResult.success qaArrayLit) rfl

/-- C6: the element filter drops exactly the candidates that are not
objects with string-typed question and answer values, silently, and
keeps the valid ones in their original relative order, both for a
bare parsed array and for the quizzes property of a parsed object. -/
theorem C6_shape_filter (xs pre post : List Json) (bad : Json)
    (fields : List (String × Json)) :
    (∀ x : Json, quizItem x = none ↔ ¬ specValidShape x)
    ∧ (quizItem bad = none →
        (pre ++ bad :: post).filterMap quizItem = (pre ++ post).filterMap quizItem)
    ∧ normalizeQuizzes (Json.arr xs) = xs.filterMap quizItem
    ∧ (getField fields "quizzes" = some (Json.arr xs) →
        normalizeQuizzes (Json.obj fields) = xs.filterMap quizItem) := by
  refine ⟨?_, ?_, rfl, ?_⟩
  · intro x
    constructor
    · intro hnone hspec
      rcases hspec with ⟨f2, q, a, hx, hq, ha⟩
      subst hx
      simp only [quizItem] at hnone
      rw [hq, ha] at hnone
      exact Option.noConfusion hnone
    · intro hns
      cases x with
      | obj f2 =>
        obtain ⟨gq, hq⟩ : ∃ g, getField f2 "question" = g := ⟨_, rfl⟩
        cases gq with
        | none => simp [quizItem, hq]
        | some vq =>
          cases vq with
          | str q =>
            obtain ⟨ga, ha⟩ : ∃ g, getField f2 "answer" = g := ⟨_, rfl⟩
            cases ga with
            | none => simp [quizItem, hq, ha]
            | some va =>
              cases va with
              | str a => exact absurd ⟨f2, q, a, rfl, hq, ha⟩ hns
              | null => simp [quizItem, hq, ha]
              | bool b2 => simp [quizItem, hq, ha]
              | num l2 => simp [quizItem, hq, ha]
              | arr a2 => simp [quizItem, hq, ha]
              | obj f3 => simp [quizItem, hq, ha]
          | null => simp [quizItem, hq]
          | bool b2 => simp [quizItem, hq]
          | num l2 => simp [quizItem, hq]
          | arr a2 => simp [quizItem, hq]
          | obj f3 => simp [quizItem, hq]
      | null => rfl
      | bool b2 => rfl
      | num l2 => rfl
      | str s2 => rfl
      | arr a2 => rfl
  · intro hbad
    simp [List.filterMap_append, List.filterMap_cons, hbad]
  · intro h
    simp only [normalizeQuizzes, h]

/-- Witness for C6: a string element between valid items is dropped
while the valid sibling is kept, and a quizzes property is found and
filtered. -/
theorem C6_shape_filter_witness :
    ((([jsonOfQA ⟨"q", "a"⟩] : List Json) ++ Json.str "oops" :: ([] : List Json)).filterMap quizItem
        = (([jsonOfQA ⟨"q", "a"⟩] : List Json) ++ ([] : List Json)).filterMap quizItem)
    ∧ normalizeQuizzes (Json.obj [("quizzes", Json.arr [jsonOfQA ⟨"q", "a"⟩])])
        = ([jsonOfQA ⟨"q", "a"⟩] : List Json).filterMap quizItem :=
  ⟨(C6_shape_filter [jsonOfQA ⟨"q", "a"⟩] [jsonOfQA ⟨"q", "a"⟩] [] (Json.str "oops")
      [("quizzes", Json.arr [jsonOfQA ⟨"q", "a"⟩])]).2.1 rfl,
   (C6_shape_filter [jsonOfQA ⟨"q", "a"⟩] [jsonOfQA ⟨"q", "a"⟩] [] (Json.str "oops")
      [("quizzes", Json.arr [jsonOfQA ⟨"q", "a"⟩])]).2.2.2 rfl⟩

/-- C7 counterexample: prose containing an embedded, parseable quiz
array with a valid item, followed by a second bracketed fragment.  The
greedy extraction spans the first opening bracket to the last closing
bracket, the spanned substring is invalid JSON, and the endpoint
answers the generic 500 instead of returning the embedded item. -/
theorem C7_counterexample :
    parseFailed (parseJson ("a " ++ qaArrayLit ++ " b [1] c")) = true
    ∧ parseJson qaArrayLit = Except.ok (Json.arr [jsonOfQA ⟨"Q", "A"⟩])
    ∧ quizItem (jsonOfQA ⟨"Q", "A"⟩) = some ⟨"Q", "A"⟩
    ∧ (POST bodyOk (some "k") none
        (ProviderResult.success ("a " ++ qaArrayLit ++ " b [1] c"))).resp.status = 500
    ∧ (POST bodyOk (some "k") none
        (ProviderResult.success ("a " ++ qaArrayLit ++ " b [1] c"))).resp.error
        = some "Unexpected server error"
    ∧ (POST bodyOk (some "k") none
        (ProviderResult.success ("a " ++ qaArrayLit ++ " b [1] c"))).resp.quizzes = none :=
  ⟨rfl, rfl, rfl, rfl, rfl, rfl⟩

/-- C7 amended: when strict parsing fails and the substring from the
first opening bracket to the last closing bracket parses as a JSON
array, the endpoint returns that array's valid items, truncated to 5,
and the 500 "No quizzes generated" error when it has none. -/
theorem C7_fallback_recovery (body : Option Json) (ep epv : Option String)
    (content sub : String) (xs : List Json)
    (hcall : (POST body ep epv (ProviderResult.success content)).calledProvider = true)
    (h1 : parseFailed (parseJson content) = true)
    (h2 : extractBracket content = some sub)
    (h3 : parseJson sub = Except.ok (Json.arr xs)) :
    (POST body ep epv (ProviderResult.success content)).resp
      = if xs.filterMap quizItem = [] then mkErrRaw 500 "No quizzes generated" content
        else mkOk ((xs.filterMap quizItem).take 5) := by
  rw [called_success_resp body ep epv content hcall]
  rcases handleContent_cases content with ⟨p, hp, _⟩ | ⟨e, hp, hnone, hh⟩
    | ⟨e, sub2, p, hp, hsome, hp2, hh⟩ | ⟨e, sub2, e2, hp, hsome, hp2, hh⟩
  · rw [hp] at h1
    exact absurd h1 (by simp [parseFailed])
  · rw [hnone] at h2
    exact Option.noConfusion h2
  · rw [hsome] at h2
    injection h2 with he
    subst he
    rw [h3] at hp2
    injection hp2 with hpv
    subst hpv
    rw [hh]
    unfold finishQuizzes
    rfl
  · rw [hsome] at h2
    injection h2 with he
    subst he
    rw [h3] at hp2
    exact Except.noConfusion hp2

/-- The specification's own malformed-recovery example. -/
def proseContent : String := "Here you go: " ++ qaArrayLit

/-- Witness for C7 amended on the specification's example content. -/
theorem C7_fallback_recovery_witness :
    (POST bodyOk (some "k") none (ProviderResult.success proseContent)).resp
      = if ([jsonOfQA ⟨"Q", "A"⟩] : List Json).filterMap quizItem = []
        then mkErrRaw 500 "No quizzes generated" proseContent
        else mkOk ((([jsonOfQA ⟨"Q", "A"⟩] : List Json).filterMap quizItem).take 5) :=
  C7_fallback_recovery bodyOk (some "k") none proseContent qaArrayLit
    [jsonOfQA ⟨"Q", "A"⟩] rfl rfl rfl rfl

/-- A 1001-character input whose truncated trim ends in whitespace. -/
def sIdem : String := String.mk ('a' :: (List.replicate 999 ' ' ++ ['b']))

/-- A 1001-character input with leading whitespace. -/
def sLead : String := String.mk (' ' :: List.replicate 1000 'a')

set_option maxRecDepth 100000 in
/-- C8 counterexample: trim-then-truncate is not idempotent, because
truncation can expose trailing whitespace that a second application
removes; and with leading whitespace the result is not the first 1000
characters of the raw input. -/
theorem C8_counterexample :
    1000 < sIdem.length
    ∧ handleGeneratePayload (handleGeneratePayload sIdem) ≠ handleGeneratePayload sIdem
    ∧ trimTruncate (trimTruncate sIdem) ≠ trimTruncate sIdem
    ∧ 1000 < sLead.length
    ∧ trimTruncate sLead ≠ String.mk (sLead.toList.take 1000) := by
  refine ⟨by decide, by decide, by decide, by decide, by decide⟩

/-- C8 amended: the client Generate handler and the server apply the
same operation, trim then take the first 1000 characters of the
trimmed text; its output never exceeds 1000 characters; the textarea
handler truncates the raw input to 1000 characters and is idempotent;
trim-then-truncate is idempotent whenever the trimmed text has at most
1000 characters, though not in general. -/
theorem C8_truncate (s : String) :
    handleGeneratePayload s = trimTruncate s
    ∧ trimTruncate s = String.mk ((jsTrim s).toList.take 1000)
    ∧ (trimTruncate s).length ≤ 1000
    ∧ onTextChange (onTextChange s) = onTextChange s
    ∧ (onTextChange s).length ≤ 1000
    ∧ ((jsTrim s).length ≤ 1000 → trimTruncate (trimTruncate s) = trimTruncate s)
    ∧ (1000 < (jsTrim s).length → (trimTruncate s).length = 1000) := by
  refine ⟨rfl, rfl, ?_, ?_, ?_, ?_, ?_⟩
  · show ((trimList s.toList).take 1000).length ≤ 1000
    rw [List.length_take]
    omega
  · show String.mk ((s.toList.take 1000).take 1000) = String.mk (s.toList.take 1000)
    rw [List.take_take, Nat.min_self]
  · show (s.toList.take 1000).length ≤ 1000
    rw [List.length_take]
    omega
  · intro h
    have hlen : (trimList s.toList).length ≤ 1000 := h
    have h1 : trimTruncate s = String.mk (trimList s.toList) := by
      unfold trimTruncate
      rw [List.take_of_length_le hlen]
    rw [h1]
    show String.mk ((trimList (trimList s.toList)).take 1000) = String.mk (trimList s.toList)
    rw [trimList_idem, List.take_of_length_le hlen]
  · intro h
    have hlen : 1000 < (trimList s.toList).length := h
    show ((trimList s.toList).take 1000).length = 1000
    rw [List.length_take]
    omega

set_option maxRecDepth 100000 in
/-- Witness for C8 amended: idempotence holds at a short input, and a
long all-letter input truncates to exactly 1000 characters. -/
theorem C8_truncate_witness :
    handleGeneratePayload " ab " = trimTruncate " ab "
    ∧ trimTruncate (trimTruncate " ab ") = trimTruncate " ab "
    ∧ (trimTruncate (String.mk (List.replicate 1001 'a'))).length = 1000 :=
  ⟨(C8_truncate " ab ").1,
   (C8_truncate " ab ").2.2.2.2.2.1 (by decide),
   (C8_truncate (String.mk (List.replicate 1001 'a'))).2.2.2.2.2.2 (by decide)⟩

/-- The missing-credential branch of the handler. -/
theorem afterTrim_no_key (ep epv : Option String) (pr : ProviderResult)
    (hkey : firstTruthy ep epv = none) :
    afterTrim ep epv pr
      = ⟨mkErr 500 "Missing OpenAI API key in environment (set NEXT_PUBLIC_OPENAI_API_KEY or OPENAI_API_KEY)", false⟩ := by
  unfold afterTrim
  rw [hkey]

/-- Without a truthy key, validation never reaches the provider. -/
theorem validateBody_no_key (b : Json) (ep epv : Option String) (pr : ProviderResult)
    (hkey : firstTruthy ep epv = none) :
    (validateBody b ep epv pr).calledProvider = false := by
  obtain ⟨g, hg⟩ : ∃ g, getTextField b = g := ⟨_, rfl⟩
  cases g with
  | none =>
    have hv : validateBody b ep epv pr = ⟨mkErr 400 "text is required", false⟩ := by
      unfold validateBody
      rw [hg]
    rw [hv]
  | some v =>
    cases v with
    | str s2 =>
      have hv : validateBody b ep epv pr = withText s2 ep epv pr := by
        unfold validateBody
        rw [hg]
      rw [hv]
      unfold withText
      by_cases hs : s2 = ""
      · rw [if_pos hs]
      · rw [if_neg hs]
        by_cases ht : trimTruncate s2 = ""
        · rw [if_pos ht]
        · rw [if_neg ht, afterTrim_no_key ep epv pr hkey]
    | null =>
      have hv : validateBody b ep epv pr = ⟨mkErr 400 "text is required", false⟩ := by
        unfold validateBody
        rw [hg]
      rw [hv]
    | bool b2 =>
      have hv : validateBody b ep epv pr = ⟨mkErr 400 "text is required", false⟩ := by
        unfold validateBody
        rw [hg]
      rw [hv]
    | num l2 =>
      have hv : validateBody b ep epv pr = ⟨mkErr 400 "text is required", false⟩ := by
        unfold validateBody
        rw [hg]
      rw [hv]
    | arr a2 =>
      have hv : validateBody b ep epv pr = ⟨mkErr 400 "text is required", false⟩ := by
        unfold validateBody
        rw [hg]
      rw [hv]
    | obj f2 =>
      have hv : validateBody b ep epv pr = ⟨mkErr 400 "text is required", false⟩ := by
        unfold validateBody
        rw [hg]
      rw [hv]

/-- C9: with neither credential environment variable yielding a truthy
key (unset and empty string both fail), the endpoint never issues the
outbound provider call, and every request that passes text validation
receives the 500 missing-key response. -/
theorem C9_missing_key (body : Option Json) (ep epv : Option String) (pr : ProviderResult)
    (s : String) (hkey : firstTruthy ep epv = none) :
    (POST body ep epv pr).calledProvider = false
    ∧ (∀ b, body = some b → getTextField b = some (Json.str s) → s ≠ "" →
        trimTruncate s ≠ "" →
        (POST body ep epv pr).resp
          = mkErr 500 "Missing OpenAI API key in environment (set NEXT_PUBLIC_OPENAI_API_KEY or OPENAI_API_KEY)") := by
  constructor
  · cases body with
    | none => rfl
    | some b =>
      cases b with
      | null => rfl
      | bool b2 => exact validateBody_no_key (Json.bool b2) ep epv pr hkey
      | num l2 => exact validateBody_no_key (Json.num l2) ep epv pr hkey
      | str s2 => exact validateBody_no_key (Json.str s2) ep epv pr hkey
      | arr a2 => exact validateBody_no_key (Json.arr a2) ep epv pr hkey
      | obj f2 => exact validateBody_no_key (Json.obj f2) ep epv pr hkey
  · intro b hb hgf hs ht
    subst hb
    cases b with
    | null => exact Option.noConfusion hgf
    | bool b2 => exact Option.noConfusion hgf
    | num l2 => exact Option.noConfusion hgf
    | str s2 => exact Option.noConfusion hgf
    | arr a2 => exact Option.noConfusion hgf
    | obj f2 =>
      have hv : validateBody (Json.obj f2) ep epv pr = withText s ep epv pr := by
        unfold validateBody
        rw [hgf]
      show (validateBody (Json.obj f2) ep epv pr).resp = _
      rw [hv]
      unfold withText
      rw [if_neg hs, if_neg ht, afterTrim_no_key ep epv pr hkey]

/-- Witness for C9: both variables set to the empty string are falsy,
so the outbound call is skipped and the missing-key error returned. -/
theorem C9_missing_key_witness :
    (POST bodyOk (some "") (some "") (ProviderResult.success "x")).calledProvider = false
    ∧ (POST bodyOk (some "") (some "") (ProviderResult.success "x")).resp
        = mkErr 500 "Missing OpenAI API key in environment (set NEXT_PUBLIC_OPENAI_API_KEY or OPENAI_API_KEY)" :=
  ⟨(C9_missing_key bodyOk (some "") (some "") (ProviderResult.success "x") "hi" rfl).1,
   (C9_missing_key bodyOk (some "") (some "") (ProviderResult.success "x") "hi" rfl).2
     (Json.obj [("text", Json.str "hi")]) rfl rfl (by decide) (by decide)⟩

/-- C10: when the provider content parses strictly to a value that is
neither an array nor an object with an array-valued quizzes property,
normalization yields no items and the endpoint answers 500
"No quizzes generated" with the raw content, never a success. -/
theorem C10_unrecognized_shape (body : Option Json) (ep epv : Option String)
    (content : String) (v : Json)
    (hcall : (POST body ep epv (ProviderResult.success content)).calledProvider = true)
    (hparse : parseJson content = Except.ok v)
    (hshape : isArrOrQuizzesObj v = false) :
    (POST body ep epv (ProviderResult.success content)).resp
      = mkErrRaw 500 "No quizzes generated" content := by
  rw [called_success_resp body ep epv content hcall]
  have hh : handleContent content = finishQuizzes v content := by
    simp only [handleContent, hparse]
  have hz : normalizeQuizzes v = [] := by
    cases v with
    | arr a2 => exact Bool.noConfusion hshape
    | obj f2 =>
      obtain ⟨g, hgf⟩ : ∃ g, getField f2 "quizzes" = g := ⟨_, rfl⟩
      cases g with
      | none => simp [normalizeQuizzes, hgf]
      | some w =>
        cases w with
        | arr a2 =>
          simp only [isArrOrQuizzesObj] at hshape
          rw [hgf] at hshape
          exact Bool.noConfusion hshape
        | null => simp [normalizeQuizzes, hgf]
        | bool b2 => simp [normalizeQuizzes, hgf]
        | num l2 => simp [normalizeQuizzes, hgf]
        | str s2 => simp [normalizeQuizzes, hgf]
        | obj f3 => simp [normalizeQuizzes, hgf]
    | null => rfl
    | bool b2 => rfl
    | num l2 => rfl
    | str s2 => rfl
  rw [hh, finishQuizzes_empty v content hz]

/-- Witness for C10: a bare JSON string parses strictly but has no
recognized shape, so the endpoint answers the 500 with it as raw. -/
theorem C10_unrecognized_shape_witness :
    (POST bodyOk (some "k") none (ProviderResult.success "\"hi\"")).resp
      = mkErrRaw 500 "No quizzes generated" "\"hi\"" :=
  C10_unrecognized_shape bodyOk (some "k") none "\"hi\"" (Json.str "hi") rfl rfl rfl

end QuizSpec
